import Mathlib

/-!
Shallow embedding of the real-time duplex audio session core of the
Nova voice-interaction client (src/App.tsx), together with theorems
settling the specified properties of the playback scheduler, the
transcript aggregator, the session lifecycle, and the PCM codec.
-/

namespace NovaLive

/-- Connection status values used by src/App.tsx (ConnectionStatus from ./types):
DISCONNECTED, CONNECTING, CONNECTED, ERROR. -/
inductive ConnectionStatus where
  | disconnected
  | connecting
  | connected
  | error
deriving DecidableEq

/-- Role of a transcript message; the code uses the string literals
'user' and 'model'. -/
inductive Role where
  | user
  | model
deriving DecidableEq

/-- A finalized transcript message appended to the history state:
{ role, text, timestamp } (src/App.tsx line 187). -/
structure Message where
  role : Role
  text : String
  timestamp : Nat
deriving DecidableEq

/-- Status of one AudioBufferSourceNode created by the audio branch of
handleLiveMessage: still playing, finished naturally, or force-stopped. -/
inductive SourceStatus where
  | playing
  | finished
  | stopped
deriving DecidableEq

/-- One scheduled playback source: its identity, the start time passed to
source.start, the decoded buffer duration, and its status. -/
structure Source where
  id : Nat
  start : ℚ
  dur : ℚ
  status : SourceStatus
deriving DecidableEq

/-- Inbound audio payload: a decodable chunk with its decoded duration, or a
malformed one on which decode / decodeAudioData throws. -/
inductive Payload where
  | good (d : ℚ)
  | bad
deriving DecidableEq

/-- One LiveServerMessage, restricted to the serverContent fields that
handleLiveMessage (src/App.tsx lines 173-202) reads. -/
structure LiveMessage where
  outputTranscription : Option String
  inputTranscription : Option String
  interrupted : Bool
  turnComplete : Bool
  audio : Option Payload
deriving DecidableEq

/-- A message carrying only an inbound audio payload. -/
def audioMsg (p : Payload) : LiveMessage := ⟨none, none, false, false, some p⟩

/-- A message carrying only an output-transcription delta. -/
def outDelta (t : String) : LiveMessage := ⟨some t, none, false, false, none⟩

/-- A message carrying only an input-transcription delta. -/
def inDelta (t : String) : LiveMessage := ⟨none, some t, false, false, none⟩

/-- A message carrying only the turnComplete flag. -/
def turnCompleteMsg : LiveMessage := ⟨none, none, false, true, none⟩

/-- A message carrying only the interrupted flag. -/
def interruptMsg : LiveMessage := ⟨none, none, true, false, none⟩

/-- The mutable state touched by handleLiveMessage and stopAllAudio:
the transcript history, the two transcript accumulator refs, the two
streaming-display state hooks, the scheduling cursor nextStartTimeRef,
the bookkeeping of created sources, the active set activeSourcesRef
(as a list of source ids), and the console output written by this
handler (none of its branches logs anything). -/
structure AppState where
  history : List Message
  currentInput : String
  currentOutput : String
  streamingUser : String
  streamingModel : String
  nextStartTime : ℚ
  sources : List Source
  active : List Nat
  log : List String
deriving DecidableEq

/-- Initial state of a fresh session. -/
def initState : AppState := ⟨[], "", "", "", "", 0, [], [], []⟩

/-- The call source.stop() wrapped in try/catch (src/App.tsx line 168): a
playing source becomes stopped; on a source that already finished or was
already stopped the call is a no-op, never an error. -/
def stopSource (src : Source) : Source :=
  if src.status = SourceStatus.playing then { src with status := SourceStatus.stopped } else src

/-- stopAllAudio (src/App.tsx lines 167-171): stop every source in the active
set, clear the set, and reset the scheduling cursor to 0. -/
def stopAllAudio (s : AppState) : AppState :=
  { s with
    sources := s.sources.map (fun src => if src.id ∈ s.active then stopSource src else src),
    active := [],
    nextStartTime := 0 }

/-- The onended callback installed on each source (src/App.tsx line 197): on
natural completion the source removes itself from the active set. -/
def onEnded (s : AppState) (i : Nat) : AppState :=
  { s with
    sources := s.sources.map (fun src => if src.id = i then { src with status := SourceStatus.finished } else src),
    active := s.active.filter (fun j => j ≠ i) }

/-- handleLiveMessage (src/App.tsx lines 173-202). The argument now is
ctx.currentTime when the audio branch runs, ts is Date.now(), and newId
identifies the source node created for a decodable chunk. The branches run in
source order: transcription deltas (output tested first, else input), then the
interrupted flag, then turnComplete (which unconditionally appends one user and
one model message), then the audio branch, which first advances the cursor to
max(nextStartTime, now); a malformed payload makes decode / decodeAudioData
throw at that point, aborting the rest of the handler with nothing logged. -/
def handleLiveMessage (s : AppState) (m : LiveMessage) (now : ℚ) (ts : Nat) (newId : Nat) :
    AppState :=
  let s1 : AppState :=
    match m.outputTranscription with
    | some t => { s with currentOutput := s.currentOutput ++ t, streamingModel := s.currentOutput ++ t }
    | none =>
      match m.inputTranscription with
      | some t => { s with currentInput := s.currentInput ++ t, streamingUser := s.currentInput ++ t }
      | none => s
  let s2 := if m.interrupted then stopAllAudio s1 else s1
  let s3 :=
    if m.turnComplete then
      { s2 with
        history := s2.history ++
          [⟨Role.user, s2.currentInput, ts⟩, ⟨Role.model, s2.currentOutput, ts⟩],
        currentInput := "", currentOutput := "", streamingUser := "", streamingModel := "" }
    else s2
  match m.audio with
  | none => s3
  | some p =>
    let start := max s3.nextStartTime now
    match p with
    | Payload.bad => { s3 with nextStartTime := start }
    | Payload.good d =>
      { s3 with
        nextStartTime := start + d,
        sources := s3.sources ++ [⟨newId, start, d, SourceStatus.playing⟩],
        active := s3.active ++ [newId] }

/-- One inbound audio event of a stream: the output-clock reading at processing
time, the payload, and the fresh id of the source node it would create. -/
structure AudioEvent where
  now : ℚ
  payload : Payload
  id : Nat
deriving DecidableEq

/-- Process a stream of inbound audio events in arrival order through
handleLiveMessage. -/
def runAudio (s : AppState) : List AudioEvent → AppState
  | [] => s
  | e :: es => runAudio (handleLiveMessage s (audioMsg e.payload) e.now 0 e.id) es

/-- The (start, duration) pairs the audio branch of handleLiveMessage assigns
to the decodable chunks of a stream, as a function of the scheduling cursor
alone: each chunk starts at max(cursor, now); a good chunk advances the cursor
by its duration, a malformed one leaves it at the maxed value. -/
def schedOf (clock : ℚ) : List AudioEvent → List (ℚ × ℚ)
  | [] => []
  | e :: es =>
    match e.payload with
    | Payload.bad => schedOf (max clock e.now) es
    | Payload.good d => (max clock e.now, d) :: schedOf (max clock e.now + d) es

/-- The value of the scheduling cursor after a stream of audio events. -/
def clockAfter (clock : ℚ) : List AudioEvent → ℚ
  | [] => clock
  | e :: es =>
    match e.payload with
    | Payload.bad => clockAfter (max clock e.now) es
    | Payload.good d => clockAfter (max clock e.now + d) es

/-- Number of decodable chunks in a stream. -/
def goodCount : List AudioEvent → Nat
  | [] => 0
  | e :: es =>
    match e.payload with
    | Payload.bad => goodCount es
    | Payload.good _ => 1 + goodCount es

lemma runAudio_spec (es : List AudioEvent) : ∀ s : AppState,
    (runAudio s es).sources.map (fun src => (src.start, src.dur)) =
      s.sources.map (fun src => (src.start, src.dur)) ++ schedOf s.nextStartTime es ∧
    (runAudio s es).nextStartTime = clockAfter s.nextStartTime es ∧
    (runAudio s es).log = s.log := by
  induction es with
  | nil => intro s; simp [runAudio, schedOf, clockAfter]
  | cons e es ih =>
    intro s
    simp only [runAudio, schedOf, clockAfter, audioMsg]
    cases hp : e.payload with
    | bad =>
      simp only [handleLiveMessage]
      have h := ih { s with nextStartTime := max s.nextStartTime e.now }
      simpa using h
    | good d =>
      simp only [handleLiveMessage]
      have h := ih { s with
        nextStartTime := max s.nextStartTime e.now + d,
        sources := s.sources ++ [⟨e.id, max s.nextStartTime e.now, d, SourceStatus.playing⟩],
        active := s.active ++ [e.id] }
      simpa using h

lemma schedOf_head_ge (es : List AudioEvent) : ∀ (c : ℚ) (p : ℚ × ℚ),
    (schedOf c es).head? = some p → c ≤ p.1 := by
  induction es with
  | nil => intro c p h; simp [schedOf] at h
  | cons e es ih =>
    intro c p h
    cases hp : e.payload with
    | bad =>
      simp only [schedOf, hp] at h
      exact le_trans (le_max_left c e.now) (ih (max c e.now) p h)
    | good d =>
      simp only [schedOf, hp, List.head?_cons, Option.some.injEq] at h
      subst h
      exact le_max_left c e.now

/-- Gap property of the scheduler: along any stream (malformed chunks
included), each scheduled chunk starts no earlier than the previous chunk's
start plus its duration. -/
lemma schedOf_chain (es : List AudioEvent) : ∀ c : ℚ,
    List.Chain' (fun a b : ℚ × ℚ => a.1 + a.2 ≤ b.1) (schedOf c es) := by
  induction es with
  | nil => intro c; simp [schedOf]
  | cons e es ih =>
    intro c
    cases hp : e.payload with
    | bad => simpa [schedOf, hp] using ih (max c e.now)
    | good d =>
      simp only [schedOf, hp]
      refine List.chain'_cons'.mpr ⟨?_, ih (max c e.now + d)⟩
      intro q hq
      exact schedOf_head_ge es (max c e.now + d) q hq

/-- With nonnegative durations the start times are non-decreasing. -/
lemma schedOf_mono (es : List AudioEvent) : ∀ c : ℚ,
    (∀ e ∈ es, ∀ d, e.payload = Payload.good d → 0 ≤ d) →
    List.Chain' (fun a b : ℚ × ℚ => a.1 ≤ b.1) (schedOf c es) := by
  induction es with
  | nil => intro c _; simp [schedOf]
  | cons e es ih =>
    intro c hd
    cases hp : e.payload with
    | bad =>
      simpa [schedOf, hp] using ih (max c e.now) (fun x hx => hd x (List.mem_cons_of_mem _ hx))
    | good d =>
      simp only [schedOf, hp]
      refine List.chain'_cons'.mpr ⟨?_, ih (max c e.now + d)
        (fun x hx => hd x (List.mem_cons_of_mem _ hx))⟩
      intro q hq
      have h1 := schedOf_head_ge es (max c e.now + d) q hq
      have h0 : (0 : ℚ) ≤ d := hd e (List.mem_cons_self _ _) d hp
      linarith

lemma schedOf_length (es : List AudioEvent) : ∀ c : ℚ,
    (schedOf c es).length = goodCount es := by
  induction es with
  | nil => intro c; simp [schedOf, goodCount]
  | cons e es ih =>
    intro c
    cases hp : e.payload with
    | bad => simp [schedOf, goodCount, hp, ih]
    | good d => simp [schedOf, goodCount, hp, ih, Nat.add_comm]

/-- C1. Each chunk's playback start time equals max(SchedulerClock, current
output-clock time), the SchedulerClock is then updated to that start plus the
chunk's duration, and over any arrival-ordered stream the gap property
start(i+1) >= start(i) + d(i) holds between consecutive scheduled chunks;
with nonnegative durations the start times are non-decreasing. -/
theorem scheduler_monotonic (s : AppState) (d now : ℚ) (ts i : Nat)
    (es : List AudioEvent)
    (hd : ∀ e ∈ es, ∀ dd, e.payload = Payload.good dd → 0 ≤ dd) :
    handleLiveMessage s (audioMsg (Payload.good d)) now ts i =
      { s with
        nextStartTime := max s.nextStartTime now + d,
        sources := s.sources ++ [⟨i, max s.nextStartTime now, d, SourceStatus.playing⟩],
        active := s.active ++ [i] } ∧
    (runAudio s es).sources.map (fun src => (src.start, src.dur)) =
      s.sources.map (fun src => (src.start, src.dur)) ++ schedOf s.nextStartTime es ∧
    List.Chain' (fun a b : ℚ × ℚ => a.1 + a.2 ≤ b.1) (schedOf s.nextStartTime es) ∧
    List.Chain' (fun a b : ℚ × ℚ => a.1 ≤ b.1) (schedOf s.nextStartTime es) := by
  refine ⟨rfl, (runAudio_spec es s).1, schedOf_chain es s.nextStartTime,
    schedOf_mono es s.nextStartTime hd⟩

/-- Witness for C1 at a concrete stream of three chunks. -/
theorem scheduler_monotonic_witness :
    handleLiveMessage initState (audioMsg (Payload.good 2)) 1 0 0 =
      { initState with
        nextStartTime := max initState.nextStartTime 1 + 2,
        sources := initState.sources ++ [⟨0, max initState.nextStartTime 1, 2, SourceStatus.playing⟩],
        active := initState.active ++ [0] } ∧
    (runAudio initState [⟨1, Payload.good 2, 0⟩, ⟨2, Payload.good 1, 1⟩, ⟨7, Payload.good 3, 2⟩]).sources.map
        (fun src => (src.start, src.dur)) =
      initState.sources.map (fun src => (src.start, src.dur)) ++
        schedOf initState.nextStartTime [⟨1, Payload.good 2, 0⟩, ⟨2, Payload.good 1, 1⟩, ⟨7, Payload.good 3, 2⟩] ∧
    List.Chain' (fun a b : ℚ × ℚ => a.1 + a.2 ≤ b.1)
      (schedOf initState.nextStartTime [⟨1, Payload.good 2, 0⟩, ⟨2, Payload.good 1, 1⟩, ⟨7, Payload.good 3, 2⟩]) ∧
    List.Chain' (fun a b : ℚ × ℚ => a.1 ≤ b.1)
      (schedOf initState.nextStartTime [⟨1, Payload.good 2, 0⟩, ⟨2, Payload.good 1, 1⟩, ⟨7, Payload.good 3, 2⟩]) := by
  exact scheduler_monotonic initState 2 1 0 0
    [⟨1, Payload.good 2, 0⟩, ⟨2, Payload.good 1, 1⟩, ⟨7, Payload.good 3, 2⟩]
    (by intro e he dd hp; fin_cases he <;> simp_all <;> linarith)

lemma handle_interrupt (s : AppState) (now : ℚ) (ts i : Nat) :
    handleLiveMessage s interruptMsg now ts i = stopAllAudio s := rfl

/-- C2. After an interrupt is processed, the active set is empty and the
scheduling cursor is reset to 0; every source of the pre-interrupt active set
is no longer playing (a handle that already finished stays finished, a no-op);
an interrupt with an empty active set leaves the sources untouched; and the
next inbound chunk is scheduled to start exactly at the current output-clock
time, with no pre-interrupt offset. -/
theorem interrupt_clears_state (s : AppState) (now1 now2 d : ℚ) (ts1 ts2 i1 i2 : Nat)
    (hnow : 0 ≤ now2) :
    (handleLiveMessage s interruptMsg now1 ts1 i1).active = [] ∧
    (handleLiveMessage s interruptMsg now1 ts1 i1).nextStartTime = 0 ∧
    (∀ src ∈ (handleLiveMessage s interruptMsg now1 ts1 i1).sources,
      src.id ∈ s.active → src.status ≠ SourceStatus.playing) ∧
    (∀ src : Source, src.status = SourceStatus.finished → stopSource src = src) ∧
    (s.active = [] → (handleLiveMessage s interruptMsg now1 ts1 i1).sources = s.sources) ∧
    (handleLiveMessage (handleLiveMessage s interruptMsg now1 ts1 i1)
        (audioMsg (Payload.good d)) now2 ts2 i2).sources =
      (handleLiveMessage s interruptMsg now1 ts1 i1).sources ++
        [⟨i2, now2, d, SourceStatus.playing⟩] := by
  rw [handle_interrupt]
  refine ⟨rfl, rfl, ?_, ?_, ?_, ?_⟩
  · intro src hsrc hid
    simp only [stopAllAudio, List.mem_map] at hsrc
    obtain ⟨x, -, hx⟩ := hsrc
    by_cases hmem : x.id ∈ s.active
    · subst hx
      simp only [hmem, if_true] at hid ⊢
      unfold stopSource
      by_cases hst : x.status = SourceStatus.playing <;> simp [hst]
    · subst hx
      simp only [hmem, if_false] at hid
  · intro src hfin
    simp [stopSource, hfin]
  · intro hempty
    simp [stopAllAudio, hempty]
  · have h0 : (stopAllAudio s).nextStartTime = 0 := rfl
    simp [handleLiveMessage, audioMsg, h0, max_eq_right hnow]

/-- A concrete pre-interrupt state holding one playing source and one finished
source, both still in the active set, with a cursor far in the future. -/
def c2State : AppState :=
  ⟨[], "", "", "", "", 10,
    [⟨1, 0, 3, SourceStatus.playing⟩, ⟨2, 3, 2, SourceStatus.finished⟩], [1, 2], []⟩

/-- Witness for C2 at a concrete pre-interrupt state holding one playing and
one finished source. -/
theorem interrupt_clears_state_witness :
    (handleLiveMessage c2State interruptMsg 3 0 9).active = [] ∧
    (handleLiveMessage c2State interruptMsg 3 0 9).nextStartTime = 0 ∧
    (∀ src ∈ (handleLiveMessage c2State interruptMsg 3 0 9).sources,
      src.id ∈ c2State.active → src.status ≠ SourceStatus.playing) ∧
    (∀ src : Source, src.status = SourceStatus.finished → stopSource src = src) ∧
    (c2State.active = [] → (handleLiveMessage c2State interruptMsg 3 0 9).sources = c2State.sources) ∧
    (handleLiveMessage (handleLiveMessage c2State interruptMsg 3 0 9)
        (audioMsg (Payload.good 2)) 5 0 7).sources =
      (handleLiveMessage c2State interruptMsg 3 0 9).sources ++
        [⟨7, 5, 2, SourceStatus.playing⟩] :=
  interrupt_clears_state c2State 3 5 2 0 0 9 7 (by norm_num)

/-- C3 counterexample: a turnComplete that arrives at the initial state (both
accumulators empty) appends two Messages with empty text to the history, not
zero Messages. -/
theorem empty_turn_cex :
    (handleLiveMessage initState turnCompleteMsg 0 0 0).history =
      [⟨Role.user, "", 0⟩, ⟨Role.model, "", 0⟩] ∧
    (handleLiveMessage initState turnCompleteMsg 0 0 0).history.length ≠ 0 := by
  exact ⟨rfl, by decide⟩

/-- C3 amended. A turn-complete arriving with both accumulators empty emits
exactly two Messages with empty text, user before model, and leaves both
accumulators empty. -/
theorem empty_turn_emits_two (s : AppState) (now : ℚ) (ts i : Nat)
    (h1 : s.currentInput = "") (h2 : s.currentOutput = "") :
    (handleLiveMessage s turnCompleteMsg now ts i).history =
      s.history ++ [⟨Role.user, "", ts⟩, ⟨Role.model, "", ts⟩] ∧
    (handleLiveMessage s turnCompleteMsg now ts i).currentInput = "" ∧
    (handleLiveMessage s turnCompleteMsg now ts i).currentOutput = "" := by
  simp [handleLiveMessage, turnCompleteMsg, h1, h2]

/-- Witness for the amended C3 at the initial state. -/
theorem empty_turn_emits_two_witness :
    (handleLiveMessage initState turnCompleteMsg 0 4 0).history =
      initState.history ++ [⟨Role.user, "", 4⟩, ⟨Role.model, "", 4⟩] ∧
    (handleLiveMessage initState turnCompleteMsg 0 4 0).currentInput = "" ∧
    (handleLiveMessage initState turnCompleteMsg 0 4 0).currentOutput = "" :=
  empty_turn_emits_two initState 0 4 0 rfl rfl

/-- One inbound message paired with the output-clock time, wall-clock
timestamp, and fresh source id at its processing time. -/
structure Inbound where
  msg : LiveMessage
  now : ℚ
  ts : Nat
  id : Nat

/-- Process a list of inbound messages in arrival order through
handleLiveMessage. -/
def runMessages (s : AppState) : List Inbound → AppState
  | [] => s
  | e :: es => runMessages (handleLiveMessage s e.msg e.now e.ts e.id) es

/-- C4. From a state with both accumulators empty, the deltas input "Hello" and
" world" and output "Hi" and " there" followed by a turn-complete emit exactly
the two Messages user "Hello world" then model "Hi there" as new history, with
the user Message first whether the input or the output accumulator received
data last, and both accumulators and the live-display side channel are empty
afterwards. -/
theorem turn_aggregation (s : AppState) (ts : Nat)
    (h1 : s.currentInput = "") (h2 : s.currentOutput = "") :
    (runMessages s
        [⟨outDelta "Hi", 0, ts, 0⟩, ⟨outDelta " there", 0, ts, 0⟩,
         ⟨inDelta "Hello", 0, ts, 0⟩, ⟨inDelta " world", 0, ts, 0⟩,
         ⟨turnCompleteMsg, 0, ts, 0⟩]).history =
      s.history ++ [⟨Role.user, "Hello world", ts⟩, ⟨Role.model, "Hi there", ts⟩] ∧
    (runMessages s
        [⟨inDelta "Hello", 0, ts, 0⟩, ⟨inDelta " world", 0, ts, 0⟩,
         ⟨outDelta "Hi", 0, ts, 0⟩, ⟨outDelta " there", 0, ts, 0⟩,
         ⟨turnCompleteMsg, 0, ts, 0⟩]).history =
      s.history ++ [⟨Role.user, "Hello world", ts⟩, ⟨Role.model, "Hi there", ts⟩] ∧
    (runMessages s
        [⟨inDelta "Hello", 0, ts, 0⟩, ⟨inDelta " world", 0, ts, 0⟩,
         ⟨outDelta "Hi", 0, ts, 0⟩, ⟨outDelta " there", 0, ts, 0⟩,
         ⟨turnCompleteMsg, 0, ts, 0⟩]).currentInput = "" ∧
    (runMessages s
        [⟨inDelta "Hello", 0, ts, 0⟩, ⟨inDelta " world", 0, ts, 0⟩,
         ⟨outDelta "Hi", 0, ts, 0⟩, ⟨outDelta " there", 0, ts, 0⟩,
         ⟨turnCompleteMsg, 0, ts, 0⟩]).currentOutput = "" ∧
    (runMessages s
        [⟨inDelta "Hello", 0, ts, 0⟩, ⟨inDelta " world", 0, ts, 0⟩,
         ⟨outDelta "Hi", 0, ts, 0⟩, ⟨outDelta " there", 0, ts, 0⟩,
         ⟨turnCompleteMsg, 0, ts, 0⟩]).streamingUser = "" ∧
    (runMessages s
        [⟨inDelta "Hello", 0, ts, 0⟩, ⟨inDelta " world", 0, ts, 0⟩,
         ⟨outDelta "Hi", 0, ts, 0⟩, ⟨outDelta " there", 0, ts, 0⟩,
         ⟨turnCompleteMsg, 0, ts, 0⟩]).streamingModel = "" := by
  obtain ⟨hist, ci, co, su, sm, c, srcs, act, lg⟩ := s
  simp only at h1 h2
  subst h1
  subst h2
  exact ⟨rfl, rfl, rfl, rfl, rfl, rfl⟩

/-- Witness for C4 at the initial state. -/
theorem turn_aggregation_witness :
    (runMessages initState
        [⟨outDelta "Hi", 0, 9, 0⟩, ⟨outDelta " there", 0, 9, 0⟩,
         ⟨inDelta "Hello", 0, 9, 0⟩, ⟨inDelta " world", 0, 9, 0⟩,
         ⟨turnCompleteMsg, 0, 9, 0⟩]).history =
      initState.history ++ [⟨Role.user, "Hello world", 9⟩, ⟨Role.model, "Hi there", 9⟩] ∧
    (runMessages initState
        [⟨inDelta "Hello", 0, 9, 0⟩, ⟨inDelta " world", 0, 9, 0⟩,
         ⟨outDelta "Hi", 0, 9, 0⟩, ⟨outDelta " there", 0, 9, 0⟩,
         ⟨turnCompleteMsg, 0, 9, 0⟩]).history =
      initState.history ++ [⟨Role.user, "Hello world", 9⟩, ⟨Role.model, "Hi there", 9⟩] ∧
    (runMessages initState
        [⟨inDelta "Hello", 0, 9, 0⟩, ⟨inDelta " world", 0, 9, 0⟩,
         ⟨outDelta "Hi", 0, 9, 0⟩, ⟨outDelta " there", 0, 9, 0⟩,
         ⟨turnCompleteMsg, 0, 9, 0⟩]).currentInput = "" ∧
    (runMessages initState
        [⟨inDelta "Hello", 0, 9, 0⟩, ⟨inDelta " world", 0, 9, 0⟩,
         ⟨outDelta "Hi", 0, 9, 0⟩, ⟨outDelta " there", 0, 9, 0⟩,
         ⟨turnCompleteMsg, 0, 9, 0⟩]).currentOutput = "" ∧
    (runMessages initState
        [⟨inDelta "Hello", 0, 9, 0⟩, ⟨inDelta " world", 0, 9, 0⟩,
         ⟨outDelta "Hi", 0, 9, 0⟩, ⟨outDelta " there", 0, 9, 0⟩,
         ⟨turnCompleteMsg, 0, 9, 0⟩]).streamingUser = "" ∧
    (runMessages initState
        [⟨inDelta "Hello", 0, 9, 0⟩, ⟨inDelta " world", 0, 9, 0⟩,
         ⟨outDelta "Hi", 0, 9, 0⟩, ⟨outDelta " there", 0, 9, 0⟩,
         ⟨turnCompleteMsg, 0, 9, 0⟩]).streamingModel = "" :=
  turn_aggregation initState 9 rfl rfl

/-- Lifecycle state touched by toggleConnection and the transport callbacks
(src/App.tsx lines 204-243): the status and isListening state hooks, whether
the ScriptProcessor onaudioprocess handler has been wired (it is installed in
the onopen callback and never unwired anywhere), the number of session close
calls performed, and the frames handed to sendRealtimeInput so far. -/
structure LifeState where
  status : ConnectionStatus
  listening : Bool
  captureInstalled : Bool
  closeCount : Nat
  sentFrames : List Nat
deriving DecidableEq

/-- Initial lifecycle state. -/
def initLife : LifeState := ⟨ConnectionStatus.disconnected, false, false, 0, []⟩

/-- Events driving the lifecycle: the user pressing the session button
(toggleConnection), the four transport callbacks and the catch branch of a
failed setup, and one ScriptProcessor audio tick carrying a frame. -/
inductive LiveEvent where
  | toggle
  | onOpen
  | onError
  | onClose
  | setupFail
  | tick (frameId : Nat)
deriving DecidableEq

/-- toggleConnection (src/App.tsx lines 204-243), synchronous part: when status
is CONNECTED it closes the session, sets DISCONNECTED and clears listening and
returns; from every other status it sets CONNECTING and starts a connection
attempt. It never touches the installed audio-process handler. -/
def toggleConnection (s : LifeState) : LifeState :=
  if s.status = ConnectionStatus.connected then
    { s with status := ConnectionStatus.disconnected, listening := false,
             closeCount := s.closeCount + 1 }
  else
    { s with status := ConnectionStatus.connecting }

/-- One lifecycle step. The callbacks are embedded exactly as written: onopen
sets CONNECTED, sets listening and wires the capture handler (line 217-226);
onerror only logs and sets ERROR (lines 229-232); onclose only sets
DISCONNECTED (line 233); the catch branch sets ERROR (line 242). An audio tick
sends its frame whenever the handler is wired, regardless of status, since the
code never disconnects the ScriptProcessor. -/
def stepEvent (s : LifeState) : LiveEvent → LifeState
  | LiveEvent.toggle => toggleConnection s
  | LiveEvent.onOpen =>
      { s with status := ConnectionStatus.connected, listening := true, captureInstalled := true }
  | LiveEvent.onError => { s with status := ConnectionStatus.error }
  | LiveEvent.onClose => { s with status := ConnectionStatus.disconnected }
  | LiveEvent.setupFail => { s with status := ConnectionStatus.error }
  | LiveEvent.tick i =>
      if s.captureInstalled then { s with sentFrames := s.sentFrames ++ [i] } else s

/-- Run a sequence of lifecycle events in order. -/
def runEvents (s : LifeState) : List LiveEvent → LifeState
  | [] => s
  | e :: es => runEvents (stepEvent s e) es

/-- C5 counterexample: invoking toggleConnection, the only stop entry point,
while already Disconnected does not leave the state unchanged: it transitions
to Connecting; and applying it twice from Connected differs from applying it
once. -/
theorem stop_idempotent_cex :
    (toggleConnection initLife).status = ConnectionStatus.connecting ∧
    toggleConnection initLife ≠ initLife ∧
    toggleConnection (toggleConnection ⟨ConnectionStatus.connected, true, true, 0, []⟩) ≠
      toggleConnection ⟨ConnectionStatus.connected, true, true, 0, []⟩ := by
  decide

/-- C5 amended. The teardown branch of toggleConnection runs only from
Connected: invoked while Disconnected it performs no teardown side effects
(no session close, no listening change, no capture change, no frame sent)
but transitions to Connecting, beginning a new connection attempt. -/
theorem stop_only_from_connected (s : LifeState)
    (h : s.status = ConnectionStatus.disconnected) :
    toggleConnection s = { s with status := ConnectionStatus.connecting } ∧
    (toggleConnection s).closeCount = s.closeCount ∧
    (toggleConnection s).listening = s.listening ∧
    (toggleConnection s).captureInstalled = s.captureInstalled ∧
    (toggleConnection s).sentFrames = s.sentFrames ∧
    (toggleConnection s).status = ConnectionStatus.connecting := by
  simp [toggleConnection, h]

/-- Witness for the amended C5 at the initial lifecycle state. -/
theorem stop_only_from_connected_witness :
    toggleConnection initLife = { initLife with status := ConnectionStatus.connecting } ∧
    (toggleConnection initLife).closeCount = initLife.closeCount ∧
    (toggleConnection initLife).listening = initLife.listening ∧
    (toggleConnection initLife).captureInstalled = initLife.captureInstalled ∧
    (toggleConnection initLife).sentFrames = initLife.sentFrames ∧
    (toggleConnection initLife).status = ConnectionStatus.connecting :=
  stop_only_from_connected initLife rfl

/-- C6 counterexample: at a connected, listening state with the capture
pipeline wired, the onerror callback sets status to Error but performs none of
the stop teardown: listening stays true and the capture pipeline stays
installed. -/
theorem error_teardown_cex :
    (stepEvent ⟨ConnectionStatus.connected, true, true, 0, []⟩ LiveEvent.onError).status =
      ConnectionStatus.error ∧
    (stepEvent ⟨ConnectionStatus.connected, true, true, 0, []⟩ LiveEvent.onError).listening = true ∧
    (stepEvent ⟨ConnectionStatus.connected, true, true, 0, []⟩
      LiveEvent.onError).captureInstalled = true := by
  decide

/-- C6 amended. The onerror callback transitions ConnectionState immediately to
Error and changes nothing else: no capture teardown, no listening change, no
session close, and in-flight playback is untouched. -/
theorem error_sets_error_only (s : LifeState) :
    stepEvent s LiveEvent.onError = { s with status := ConnectionStatus.error } := rfl

/-- C7 counterexample: after connect, open, and then stop, the still-wired
audio tick sends its frame to the transport even though the session has left
Connected. -/
theorem capture_stops_cex :
    (runEvents initLife [LiveEvent.toggle, LiveEvent.onOpen, LiveEvent.toggle,
        LiveEvent.tick 7]).status = ConnectionStatus.disconnected ∧
    (runEvents initLife [LiveEvent.toggle, LiveEvent.onOpen, LiveEvent.toggle,
        LiveEvent.tick 7]).sentFrames = [7] := by
  decide

lemma step_no_capture (s : LifeState) (e : LiveEvent) (hne : e ≠ LiveEvent.onOpen)
    (hcap : s.captureInstalled = false) :
    (stepEvent s e).captureInstalled = false ∧ (stepEvent s e).sentFrames = s.sentFrames := by
  cases e with
  | toggle =>
    by_cases hc : s.status = ConnectionStatus.connected <;>
      simp [stepEvent, toggleConnection, hc, hcap]
  | onOpen => exact absurd rfl hne
  | onError => simp [stepEvent, hcap]
  | onClose => simp [stepEvent, hcap]
  | setupFail => simp [stepEvent, hcap]
  | tick i => simp [stepEvent, hcap]

lemma no_open_no_frames (es : List LiveEvent) : ∀ s : LifeState, LiveEvent.onOpen ∉ es →
    s.captureInstalled = false →
    (runEvents s es).sentFrames = s.sentFrames ∧ (runEvents s es).captureInstalled = false := by
  induction es with
  | nil => intro s _ hcap; exact ⟨rfl, hcap⟩
  | cons e es ih =>
    intro s hno hcap
    have hne : e ≠ LiveEvent.onOpen := by
      intro he
      exact hno (by rw [he]; exact List.mem_cons_self _ _)
    have hstep := step_no_capture s e hne hcap
    have hrest := ih (stepEvent s e) (fun hm => hno (List.mem_cons_of_mem _ hm)) hstep.1
    exact ⟨by rw [runEvents, hrest.1, hstep.2], by rw [runEvents]; exact hrest.2⟩

lemma capture_keeps (s : LifeState) (e : LiveEvent) (h : s.captureInstalled = true) :
    (stepEvent s e).captureInstalled = true := by
  cases e with
  | toggle =>
    by_cases hc : s.status = ConnectionStatus.connected <;>
      simp [stepEvent, toggleConnection, hc, h]
  | onOpen => rfl
  | onError => simpa [stepEvent] using h
  | onClose => simpa [stepEvent] using h
  | setupFail => simpa [stepEvent] using h
  | tick i => simp [stepEvent, h]

/-- C7 amended. The capture pipeline produces no frames before the first
onopen (the handler is only installed on the transition to Connected), but it
is never torn down: once installed it survives every later event, and an audio
tick hands its frame to the transport send regardless of the session having
left Connected. -/
theorem capture_start_no_stop (es : List LiveEvent) (s : LifeState) (e : LiveEvent) (i : Nat)
    (h1 : LiveEvent.onOpen ∉ es) (h2 : s.captureInstalled = true) :
    (runEvents initLife es).sentFrames = [] ∧
    stepEvent s (LiveEvent.tick i) = { s with sentFrames := s.sentFrames ++ [i] } ∧
    (stepEvent s e).captureInstalled = true := by
  refine ⟨(no_open_no_frames es initLife h1 rfl).1, by simp [stepEvent, h2],
    capture_keeps s e h2⟩

/-- Witness for the amended C7 at a concrete event sequence and state. -/
theorem capture_start_no_stop_witness :
    (runEvents initLife [LiveEvent.toggle, LiveEvent.onError, LiveEvent.onClose,
        LiveEvent.tick 3]).sentFrames = [] ∧
    stepEvent ⟨ConnectionStatus.connected, true, true, 0, []⟩ (LiveEvent.tick 5) =
      { (⟨ConnectionStatus.connected, true, true, 0, []⟩ : LifeState) with
        sentFrames := (⟨ConnectionStatus.connected, true, true, 0, []⟩ : LifeState).sentFrames
          ++ [5] } ∧
    (stepEvent ⟨ConnectionStatus.connected, true, true, 0, []⟩
      LiveEvent.toggle).captureInstalled = true :=
  capture_start_no_stop [LiveEvent.toggle, LiveEvent.onError, LiveEvent.onClose,
    LiveEvent.tick 3] ⟨ConnectionStatus.connected, true, true, 0, []⟩ LiveEvent.toggle 5
    (by decide) rfl

/-- C8 counterexample: from the Error state, toggleConnection transitions
directly to Connecting, a transition the claimed step relation forbids (it
requires Error to go only back to Disconnected). -/
theorem transitions_cex :
    (stepEvent ⟨ConnectionStatus.error, false, false, 0, []⟩ LiveEvent.toggle).status =
      ConnectionStatus.connecting ∧
    ConnectionStatus.connecting ≠ ConnectionStatus.disconnected := by
  decide

/-- C8 amended. The step relation actually admitted by the code: toggle from
Connected goes to Disconnected; toggle from any other status, Error and
Connecting included, goes to Connecting; onopen sets Connected; onerror and a
failed setup set Error; onclose sets Disconnected. In particular Error
transitions directly to Connecting on toggle, without passing through
Disconnected. -/
theorem lifecycle_transitions (s : LifeState) :
    (s.status = ConnectionStatus.connected →
      (stepEvent s LiveEvent.toggle).status = ConnectionStatus.disconnected) ∧
    (s.status ≠ ConnectionStatus.connected →
      (stepEvent s LiveEvent.toggle).status = ConnectionStatus.connecting) ∧
    (stepEvent s LiveEvent.onOpen).status = ConnectionStatus.connected ∧
    (stepEvent s LiveEvent.onError).status = ConnectionStatus.error ∧
    (stepEvent s LiveEvent.setupFail).status = ConnectionStatus.error ∧
    (stepEvent s LiveEvent.onClose).status = ConnectionStatus.disconnected := by
  refine ⟨?_, ?_, rfl, rfl, rfl, rfl⟩ <;> intro h <;> simp [stepEvent, toggleConnection, h]

/-- Witness for the amended C8: the Error-to-Connecting retry transition at a
concrete state. -/
theorem lifecycle_transitions_witness :
    (stepEvent ⟨ConnectionStatus.error, true, false, 0, []⟩ LiveEvent.toggle).status =
      ConnectionStatus.connecting :=
  (lifecycle_transitions ⟨ConnectionStatus.error, true, false, 0, []⟩).2.1 (by decide)

/-- C9 counterexample: a malformed chunk is dropped (no source is created, the
cursor is merely maxed against now) but nothing is appended to the console
log: handleLiveMessage has no catch around decode / decodeAudioData and logs
nothing, so the claimed logging of the failure does not happen. -/
theorem bad_chunk_cex :
    (handleLiveMessage initState (audioMsg Payload.bad) 5 0 0).sources = [] ∧
    (handleLiveMessage initState (audioMsg Payload.bad) 5 0 0).log = [] ∧
    (handleLiveMessage initState (audioMsg Payload.bad) 5 0 0).log.length = 0 := by
  decide

lemma goodCount_append (xs ys : List AudioEvent) :
    goodCount (xs ++ ys) = goodCount xs + goodCount ys := by
  induction xs with
  | nil => simp [goodCount]
  | cons e es ih =>
    cases hp : e.payload with
    | bad => simp [goodCount, hp, ih]
    | good d => simp [goodCount, hp, ih]; omega

/-- C9 amended. A malformed chunk is dropped without rescheduling and without
any log entry (the decode exception escapes the handler, which never writes to
the log), while every decodable chunk before and after it is still scheduled,
and the gap ordering between consecutive scheduled chunks survives the bad
chunk. -/
theorem bad_chunk_skipped (s : AppState) (now : ℚ) (ts i : Nat)
    (es1 es2 : List AudioEvent) (nb : ℚ) (ib : Nat) :
    handleLiveMessage s (audioMsg Payload.bad) now ts i =
      { s with nextStartTime := max s.nextStartTime now } ∧
    (runAudio s (es1 ++ ⟨nb, Payload.bad, ib⟩ :: es2)).log = s.log ∧
    (runAudio s (es1 ++ ⟨nb, Payload.bad, ib⟩ :: es2)).sources.length =
      s.sources.length + (goodCount es1 + goodCount es2) ∧
    List.Chain' (fun a b : ℚ × ℚ => a.1 + a.2 ≤ b.1)
      (schedOf s.nextStartTime (es1 ++ ⟨nb, Payload.bad, ib⟩ :: es2)) := by
  refine ⟨rfl, (runAudio_spec _ s).2.2, ?_, schedOf_chain _ s.nextStartTime⟩
  have h := congrArg List.length (runAudio_spec (es1 ++ ⟨nb, Payload.bad, ib⟩ :: es2) s).1
  simp [schedOf_length, goodCount_append, goodCount] at h
  omega

/-- Modelled from the spec: the quantization scale factor of the signed 16-bit
range used by the PCM codec of utils/audioUtils, whose implementation
(createBlob, decode, decodeAudioData, imported at src/App.tsx line 5) is not
present under src/. -/
def scale : ℚ := 32768

/-- Modelled from the spec: clamp a sample to the range [-1, 1]. -/
def clampSample (x : ℚ) : ℚ := max (-1) (min 1 x)

/-- Modelled from the spec: truncation toward zero, the consistent rounding
mode of the modelled encoder. -/
def truncQ (x : ℚ) : ℤ := if 0 ≤ x then ⌊x⌋ else ⌈x⌉

/-- Modelled from the spec: encode clamps each sample to [-1, 1], scales to the
signed 16-bit range and truncates. -/
def encode (frame : List ℚ) : List ℤ :=
  frame.map (fun x => truncQ (clampSample x * scale))

/-- Modelled from the spec: decode divides each encoded value by the same scale
factor. -/
def decode (chunk : List ℤ) : List ℚ := chunk.map (fun v : ℤ => (v : ℚ) / scale)

lemma truncQ_close (x : ℚ) : |(truncQ x : ℚ) - x| ≤ 1 := by
  unfold truncQ
  by_cases h : 0 ≤ x
  · rw [if_pos h]
    have h1 : (⌊x⌋ : ℚ) ≤ x := Int.floor_le x
    have h2 : x < ⌊x⌋ + 1 := Int.lt_floor_add_one x
    rw [abs_le]
    constructor <;> linarith
  · rw [if_neg h]
    have h1 : x ≤ (⌈x⌉ : ℚ) := Int.le_ceil x
    have h2 : (⌈x⌉ : ℚ) < x + 1 := Int.ceil_lt_add_one x
    rw [abs_le]
    constructor <;> linarith

lemma roundtrip_sample (x : ℚ) :
    |((truncQ (clampSample x * scale) : ℚ) / scale) - clampSample x| ≤ 1 / scale := by
  have hs : (0 : ℚ) < scale := by norm_num [scale]
  have h := truncQ_close (clampSample x * scale)
  have key : ((truncQ (clampSample x * scale) : ℚ) / scale) - clampSample x =
      ((truncQ (clampSample x * scale) : ℚ) - clampSample x * scale) / scale := by
    rw [sub_div, mul_div_cancel_right₀ _ (ne_of_gt hs)]
  rw [key, abs_div, abs_of_pos hs]
  exact (div_le_div_iff_of_pos_right hs).mpr h

lemma roundtrip_getD (frame : List ℚ) : ∀ i : Nat, i < frame.length →
    |(decode (encode frame)).getD i 0 - clampSample (frame.getD i 0)| ≤ 1 / scale := by
  induction frame with
  | nil => intro i hi; simp at hi
  | cons x xs ih =>
    intro i hi
    cases i with
    | zero => simpa [decode, encode] using roundtrip_sample x
    | succ n =>
      have hn : n < xs.length := by simpa using hi
      simpa [decode, encode] using ih n hn

/-- C10. Codec round trip: decoding the encoding of a frame of N samples
yields exactly N samples, and each decoded sample is within one quantization
step of the 16-bit scale of the original clamped sample. -/
theorem codec_roundtrip (frame : List ℚ) (i : Nat) (hi : i < frame.length) :
    (decode (encode frame)).length = frame.length ∧
    |(decode (encode frame)).getD i 0 - clampSample (frame.getD i 0)| ≤ 1 / scale :=
  ⟨by simp only [decode, encode, List.length_map], roundtrip_getD frame i hi⟩

/-- Witness for C10 at a concrete three-sample frame, one sample out of
range. -/
theorem codec_roundtrip_witness :
    (decode (encode [1/2, 2, -(3/2)])).length = ([1/2, 2, -(3/2)] : List ℚ).length ∧
    |(decode (encode [1/2, 2, -(3/2)])).getD 1 0 -
      clampSample (([1/2, 2, -(3/2)] : List ℚ).getD 1 0)| ≤ 1 / scale :=
  codec_roundtrip [1/2, 2, -(3/2)] 1 (by decide)

end NovaLive
